import Mathlib

/-!
Verification of the webtemplate repository's session ("coat hanger"),
authentication, profile-update and contact-form logic.

The Python sources are shallowly embedded:

* Python `str` is modelled by Lean `String` (character-level operations are
  carried out on `List Char`, matching Python's code-point view of strings).
* `datetime.utcnow()` readings are modelled by a `Nat` parameter `now`
  (seconds or any fixed resolution; only order and the 600-second offset
  matter).  Nullable datetime columns are `Option Nat`.
* Database tables are lists of rows; `query.filter_by(...).first()` is
  `List.find?`, `.all()` plus per-row delete is `List.filter`, and deleting
  one fetched row is `List.eraseP`.
* External library calls (bcrypt, base64, PIL) are abstracted as function
  parameters, quantified over in the theorems.
-/

namespace WebTemplate

/-! ## Data model: `src/models/coat_hanger.py` and `src/models/user.py` -/

/-- The `user_data` JSON column cached on a coat-hanger row
(`auth_service.create_session` stores email, full_name, user_id). -/
structure CachedUser where
  email : String
  full_name : String
  user_id : Nat
deriving Repr, DecidableEq

/-- A row of the `coat_hanger` table.  `updated_at` is `Option Nat` because
`CoatHanger.is_expired` defensively checks `if not self.updated_at`. -/
structure CoatHanger where
  id : Nat
  user_id : Nat
  session_hash : String
  user_data : Option CachedUser
  created_at : Nat
  updated_at : Option Nat
deriving Repr, DecidableEq

/-- A row of the `user` table (`src/models/user.py`).  `updated_at` is
`Option Nat` because `detect_concurrent_edit` guards `if user.updated_at`. -/
structure User where
  id : Nat
  email : String
  full_name : String
  password_hash : String
  bio : Option String
  profile_picture_data : Option String
  profile_picture_mime_type : Option String
  created_at : Nat
  updated_at : Option Nat
deriving Repr, DecidableEq

/-- `CoatHanger.SESSION_TIMEOUT_SECONDS` (10 minutes). -/
def SESSION_TIMEOUT_SECONDS : Nat := 600

/-- `CoatHanger.is_expired`: true when `updated_at` is null or
`utcnow() >= updated_at + 600s`. -/
def CoatHanger.is_expired (s : CoatHanger) (now : Nat) : Bool :=
  match s.updated_at with
  | none => true
  | some t => now ≥ t + SESSION_TIMEOUT_SECONDS

/-- `CoatHanger.renew`: sets `updated_at` to `utcnow()` (then `save()` sets it
to `utcnow()` again and commits; both readings are the same instant `now`). -/
def CoatHanger.renew (s : CoatHanger) (now : Nat) : CoatHanger :=
  { s with updated_at := some now }

/-- The `coat_hanger` table. -/
abbrev SessionDB := List CoatHanger

/-- `CoatHanger.find_by_session_hash`: first row with the given hash; an
expired row is deleted and `None` is returned.  Returns the looked-up row
together with the table after the lazy cleanup. -/
def find_by_session_hash (db : SessionDB) (h : String) (now : Nat) :
    Option CoatHanger × SessionDB :=
  match db.find? (fun s => s.session_hash = h) with
  | none => (none, db)
  | some ch =>
    if ch.is_expired now then
      (none, db.eraseP (fun s => s.session_hash = h))
    else
      (some ch, db)

/-- Persisting `CoatHanger.renew` on the row fetched by hash `h`
(SQLAlchemy mutates the fetched object in place and commits). -/
def renewInDb (db : SessionDB) (h : String) (now : Nat) : SessionDB :=
  db.map (fun s => if s.session_hash = h then s.renew now else s)

/-- `AuthService.get_current_user`: `None` when the Flask session has no
`session_hash`; otherwise looks the hash up (lazily deleting an expired row),
renews a live row, and returns the owning user's id. -/
def get_current_user (sessionHash : Option String) (db : SessionDB) (now : Nat) :
    Option Nat × SessionDB :=
  match sessionHash with
  | none => (none, db)
  | some h =>
    match find_by_session_hash db h now with
    | (none, db') => (none, db')
    | (some ch, db') => (some ch.user_id, renewInDb db' h now)

/-- `CoatHanger.delete_user_sessions`: deletes every row of the user,
returning the number deleted. -/
def delete_user_sessions (db : SessionDB) (uid : Nat) : Nat × SessionDB :=
  ((db.filter (fun s => s.user_id = uid)).length,
   db.filter (fun s => ¬ (s.user_id = uid)))

/-- `AuthService.create_session`: deletes any existing sessions of the user
and inserts one fresh row (`save()` stamps `updated_at` with `utcnow()`).
Returns the new table and the reported `expiry_in`. -/
def create_session (db : SessionDB) (u : User) (newHash : String) (newId : Nat)
    (now : Nat) : SessionDB × Nat :=
  let db1 := (delete_user_sessions db u.id).2
  let ch : CoatHanger :=
    { id := newId, user_id := u.id, session_hash := newHash,
      user_data := some { email := u.email, full_name := u.full_name, user_id := u.id },
      created_at := now, updated_at := some now }
  (db1 ++ [ch], SESSION_TIMEOUT_SECONDS)

/-- `AuthService.logout_user`: no-op failure without a token; otherwise looks
the row up (lazy expiry cleanup) and deletes it when found. -/
def logout_user (sessionHash : Option String) (db : SessionDB) (now : Nat) :
    Bool × SessionDB :=
  match sessionHash with
  | none => (false, db)
  | some h =>
    match find_by_session_hash db h now with
    | (none, db') => (true, db')
    | (some ch, db') => (true, db'.eraseP (fun s => s.session_hash = ch.session_hash))

/-- Predicate selecting the rows `CoatHanger.cleanup_expired_sessions`
deletes: `updated_at < utcnow() - 600s` (a null `updated_at` compares as
unknown in SQL and is not selected). -/
def cleanupExpiredPred (now : Nat) (s : CoatHanger) : Bool :=
  match s.updated_at with
  | none => false
  | some t => t < now - SESSION_TIMEOUT_SECONDS

/-- `CoatHanger.cleanup_expired_sessions`. -/
def cleanup_expired_sessions (db : SessionDB) (now : Nat) : Nat × SessionDB :=
  ((db.filter (cleanupExpiredPred now)).length,
   db.filter (fun s => ¬ cleanupExpiredPred now s))

/-- The session-mutating operations exposed by the service layer. -/
inductive SessionOp where
  | login (u : User) (newHash : String) (newId : Nat) (now : Nat)
  | access (sessionHash : Option String) (now : Nat)
  | logoutOp (sessionHash : Option String) (now : Nat)
  | cleanup (now : Nat)

/-- Effect of one operation on the `coat_hanger` table. -/
def applySessionOp (db : SessionDB) : SessionOp → SessionDB
  | .login u h i now => (create_session db u h i now).1
  | .access tok now => (get_current_user tok db now).2
  | .logoutOp tok now => (logout_user tok db now).2
  | .cleanup now => (cleanup_expired_sessions db now).2

/-- All session rows of a given user. -/
def sessionsFor (db : SessionDB) (uid : Nat) : SessionDB :=
  db.filter (fun s => s.user_id = uid)

/-- At most one session row per user (spec §3 invariant; it subsumes
"at most one live row" since live rows are a subset of all rows). -/
def AtMostOneSessionPerUser (db : SessionDB) : Prop :=
  ∀ uid, (sessionsFor db uid).length ≤ 1

/-- The live (non-expired, as of `now`) session rows of a user. -/
def liveSessionsFor (db : SessionDB) (uid : Nat) (now : Nat) : SessionDB :=
  db.filter (fun s => s.user_id = uid ∧ ¬ (s.is_expired now))

/-! ## `src/utils/validators.py` -/

/-- The apostrophe character (code point 39). -/
def apostropheChar : Char := Char.ofNat 39

/-- Suffix after the first occurrence of the given character,
`none` when the character does not occur. -/
def afterChar (target : Char) : List Char → Option (List Char)
  | [] => none
  | c :: rest => if c = target then some rest else afterChar target rest

/-- One pass of `re.sub(r"<[^>]*>", "", bio)`: at each `<` that is followed by
a `>`, the span up to and including the first such `>` is removed (the regex
class `[^>]*` stops at the first `>`); a `<` with no later `>` cannot start a
match, and no later match exists either, so the rest is kept verbatim.
Structural fuel recursion (each removal consumes at least one character, so
the input length bounds the number of steps and the fuel branch is never
hit), so the function evaluates definitionally. -/
def stripTagsFuel : Nat → List Char → List Char
  | 0, l => l
  | _ + 1, [] => []
  | fuel + 1, c :: rest =>
    if c = '<' then
      match afterChar '>' rest with
      | some rest2 => stripTagsFuel fuel rest2
      | none => c :: rest
    else c :: stripTagsFuel fuel rest

/-- `re.sub(r"<[^>]*>", "", bio)`. -/
def stripTags (l : List Char) : List Char := stripTagsFuel l.length l

/-- `"javascript:"` as a character list. -/
def jsPattern : List Char := "javascript:".toList

/-- `re.sub(r"javascript:", "", s, flags=re.IGNORECASE)`: left-to-right
removal of every case-insensitive occurrence of `javascript:` (fuel
recursion as above). -/
def removeJsFuel : Nat → List Char → List Char
  | 0, l => l
  | _ + 1, [] => []
  | fuel + 1, c :: rest =>
    if (List.take 11 (c :: rest)).map Char.toLower = jsPattern then
      removeJsFuel fuel (List.drop 11 (c :: rest))
    else c :: removeJsFuel fuel rest

/-- `re.sub(r"javascript:", "", s, flags=re.IGNORECASE)`. -/
def removeJs (l : List Char) : List Char := removeJsFuel l.length l

/-- `\w` (ASCII view, matching the ASCII inputs this app handles). -/
def isWordChar (c : Char) : Bool := c.isAlpha || c.isDigit || c = '_'

/-- A match of `on\w+\s*=` (case-insensitive) anchored at the head of the
list: `on`, a maximal nonempty run of word characters, optional whitespace,
then `=`.  Returns the suffix after the consumed `=`.  (The regex cannot
match with a shorter word run: the given-back word characters would have to
match `\s*` or `=`, and word characters are neither.) -/
def onAttrMatch : List Char → Option (List Char)
  | o :: n :: rest =>
    if o.toLower = 'o' ∧ n.toLower = 'n' then
      if (rest.takeWhile isWordChar).isEmpty then none
      else
        match (rest.dropWhile isWordChar).dropWhile Char.isWhitespace with
        | '=' :: tail => some tail
        | _ => none
    else none
  | _ => none

/-- `re.sub(r"on\w+\s*=", "", s, flags=re.IGNORECASE)` (fuel recursion as
above; a match consumes at least three characters). -/
def removeOnAttrFuel : Nat → List Char → List Char
  | 0, l => l
  | _ + 1, [] => []
  | fuel + 1, c :: rest =>
    match onAttrMatch (c :: rest) with
    | some tail => removeOnAttrFuel fuel tail
    | none => c :: removeOnAttrFuel fuel rest

/-- `re.sub(r"on\w+\s*=", "", s, flags=re.IGNORECASE)`. -/
def removeOnAttr (l : List Char) : List Char := removeOnAttrFuel l.length l

/-- Python `str.strip()` on a character list. -/
def trimChars (l : List Char) : List Char :=
  ((l.dropWhile Char.isWhitespace).reverse.dropWhile Char.isWhitespace).reverse

/-- Python `str.strip()` (String level; kernel-computable, unlike
`String.trim`). -/
def pyStrip (s : String) : String := (trimChars s.toList).asString

/-- Python `str.lower()` (ASCII case mapping, matching this app's data). -/
def pyLower (s : String) : String := (s.toList.map Char.toLower).asString

/-- `str.split(sep)` for a one-character separator (the `@` and `.` splits
of the email regex). -/
def splitOnChar (sep : Char) : List Char → List (List Char)
  | [] => [[]]
  | c :: rest =>
    let r := splitOnChar sep rest
    if c = sep then [] :: r
    else (c :: r.headD []) :: r.tail

/-- A remaining `<[^>]*>` match is present exactly when some `<` is
followed, anywhere later, by a `>` (the class `[^>]*` admits every
character except `>`). -/
def ltThenGt : List Char → Bool
  | [] => false
  | c :: rest =>
    if c = '<' then rest.any (fun d => d = '>') || ltThenGt rest
    else ltThenGt rest

/-- The sanitization pipeline of `validate_bio`: strip HTML tags, remove
`javascript:` occurrences, remove `on*=` handler patterns, then `strip()`. -/
def sanitizeBioChars (l : List Char) : List Char :=
  trimChars (removeOnAttr (removeJs (stripTags l)))

/-- `validators.validate_bio`: empty bio is accepted as `""`; a bio longer
than 500 characters is rejected; otherwise the sanitized text is returned. -/
def validate_bio (bio : String) : Bool × String :=
  if bio = "" then (true, "")
  else if bio.length > 500 then (false, "Bio must be 500 characters or less")
  else (true, (sanitizeBioChars bio.toList).asString)

/-- `validators.validate_password_strength` (the module-level function used
by the profile service). -/
def validate_password_strength (password : String) : Bool × String :=
  if password.length < 8 then
    (false, "Password must be at least 8 characters")
  else if ¬ (password.toList.any Char.isUpper) then
    (false, "Password must contain at least one uppercase letter")
  else if ¬ (password.toList.any Char.isLower) then
    (false, "Password must contain at least one lowercase letter")
  else if ¬ (password.toList.any Char.isDigit) then
    (false, "Password must contain at least one digit")
  else (true, "")

/-! ## Email regex, `src/utils/validation_utils.py` -/

/-- `[a-zA-Z0-9._%+-]` (local part of the email regex). -/
def isLocalChar (c : Char) : Bool :=
  c.isAlpha || c.isDigit || c = '.' || c = '_' || c = '%' || c = '+' || c = '-'

/-- `[a-zA-Z0-9.-]` (domain part of the email regex). -/
def isDomainChar (c : Char) : Bool :=
  c.isAlpha || c.isDigit || c = '.' || c = '-'

/-- `re.match(r"^[a-zA-Z0-9._%+-]+@[a-zA-Z0-9.-]+\.[a-zA-Z]{2,}$", s)`:
exactly one `@`; a nonempty local part of local characters; after the `@`,
everything after the last dot is an alphabetic TLD of length at least 2 and
everything before it is a nonempty run of domain characters (the literal
`\.` can only be the last dot, since the TLD class excludes dots). -/
def emailFormat (s : String) : Bool :=
  match splitOnChar '@' s.toList with
  | [localPart, domain] =>
    (¬ localPart.isEmpty && localPart.all isLocalChar) &&
    (let parts := splitOnChar '.' domain
     let tld := parts.getLastD []
     let rest := List.intercalate ['.'] parts.dropLast
     (¬ rest.isEmpty && rest.all isDomainChar) &&
     (decide (tld.length ≥ 2) && tld.all Char.isAlpha))
  | _ => false

/-- `ValidationUtils.validate_email`. -/
def validate_email_util (email : String) : Bool × Option String :=
  if email = "" then (false, some "Email cannot be empty")
  else
    let e := pyStrip email
    if e.length > 120 then (false, some "Email must not exceed 120 characters")
    else if ¬ emailFormat e then (false, some "Invalid email format")
    else (true, none)

/-- `ValidationUtils.validate_name` (regex `^[a-zA-Z\s'-]+$` on the
stripped name; `\s` is taken in its ASCII reading). -/
def validate_name_util (name : String) (min_length max_length : Nat) :
    Bool × Option String :=
  if name = "" then (false, some "Name cannot be empty")
  else
    let n := pyStrip name
    if n.length < min_length then
      (false, some s!"Name must be at least {min_length} characters")
    else if n.length > max_length then
      (false, some s!"Name must not exceed {max_length} characters")
    else if ¬ (¬ n.isEmpty && n.toList.all
        (fun c => c.isAlpha || c.isWhitespace || c = apostropheChar || c = '-')) then
      (false, some "Name contains invalid characters")
    else (true, none)

/-- `ValidationUtils.validate_text_length`. -/
def validate_text_length_util (text : String) (field_name : String)
    (min_length max_length : Nat) : Bool × Option String :=
  if text = "" then (false, some s!"{field_name} cannot be empty")
  else
    let t := pyStrip text
    if t.length < min_length then
      (false, some s!"{field_name} must be at least {min_length} characters")
    else if t.length > max_length then
      (false, some s!"{field_name} must not exceed {max_length} characters")
    else (true, none)

/-! ## `src/logic/profile_service.py` -/

/-- The `submitted_updated_at` string of `update_profile`, abstracted by how
`detect_concurrent_edit` parses it: `missing` is `None` or `""` (falsy),
`unparseable` is a string `datetime.fromisoformat` rejects, and `parsed t` is
a string that parses (after the `Z`/timezone normalization) to naive UTC
time `t`. -/
inductive SubmittedTimestamp where
  | missing
  | unparseable
  | parsed (t : Nat)
deriving Repr, DecidableEq

/-- `ProfileService.detect_concurrent_edit`: no timestamp or an unparseable
timestamp means no conflict; otherwise conflict iff the row's `updated_at`
is set and strictly greater than the submitted time. -/
def detect_concurrent_edit (user : User) : SubmittedTimestamp → Bool
  | .missing => false
  | .unparseable => false
  | .parsed t =>
    match user.updated_at with
    | some cur => cur > t
    | none => false

/-- The `data` dictionary passed to `update_profile` /
`validate_profile_data`: `none` models an absent key. -/
structure ProfileData where
  full_name : Option String := none
  email : Option String := none
  bio : Option String := none
  password : Option String := none
  profile_picture_data : Option String := none
  remove_profile_picture : Bool := false
deriving Repr, DecidableEq

/-- The external image library surface used by the profile service
(`src/logic/image_utils.py` wraps base64 and PIL).  `decode_image` and
`sanitize_image` model fallible calls whose exception text is the payload of
`Except.error`; `validate_image` returns `(is_valid, mime_or_error)`. -/
structure ImageFns where
  decode_image : String → Except String (List Nat)
  sanitize_image : List Nat → Except String (List Nat)
  encode_image : List Nat → String
  validate_image : List Nat → Bool × String

/-- The `full_name` block of `validate_profile_data`. -/
def fullNameError (data : ProfileData) : Option String :=
  let full_name := pyStrip (data.full_name.getD "")
  if full_name = "" then some "Full name is required"
  else if full_name.length < 2 then some "Must be at least 2 characters"
  else if full_name.length > 100 then some "Must be 100 characters or less"
  else none

/-- The `email` block of `validate_profile_data` (inline regex plus
uniqueness against every other user row). -/
def emailError (data : ProfileData) (user_id : Nat) (users : List User) :
    Option String :=
  let email := pyLower (pyStrip (data.email.getD ""))
  if email = "" then some "Email is required"
  else if ¬ emailFormat email then some "Invalid email format"
  else
    match users.find? (fun u => u.email = email) with
    | some existing => if existing.id ≠ user_id then some "Email already in use" else none
    | none => none

/-- The `bio` block of `validate_profile_data` (only a present, nonempty bio
is validated). -/
def bioError (data : ProfileData) : Option String :=
  match data.bio with
  | some b =>
    if b = "" then none
    else
      let r := validate_bio b
      if r.1 then none else some r.2
  | none => none

/-- The `password` block of `validate_profile_data`. -/
def passwordError (data : ProfileData) : Option String :=
  match data.password with
  | some p =>
    if p = "" then none
    else
      let r := validate_password_strength p
      if r.1 then none else some r.2
  | none => none

/-- The `profile_picture_data` block of `validate_profile_data`
(a decode failure is caught and reported as `Invalid image data`). -/
def pictureError (img : ImageFns) (data : ProfileData) : Option String :=
  match data.profile_picture_data with
  | some pic =>
    if pic = "" then none
    else
      match img.decode_image pic with
      | .error _ => some "Invalid image data"
      | .ok bytes =>
        let r := img.validate_image bytes
        if r.1 then none else some r.2
  | none => none

/-- A field's contribution to the `errors` dictionary. -/
def optEntry (key : String) : Option String → List (String × String)
  | some msg => [(key, msg)]
  | none => []

/-- `ProfileService.validate_profile_data`: each field block independently
appends at most one entry to `errors` (Python dict insertion order:
full_name, email, bio, password, profile_picture); returns
`(len(errors) == 0, errors)`. -/
def validate_profile_data (img : ImageFns) (data : ProfileData) (user_id : Nat)
    (users : List User) : Bool × List (String × String) :=
  let errors :=
    optEntry "full_name" (fullNameError data) ++
    optEntry "email" (emailError data user_id users) ++
    optEntry "bio" (bioError data) ++
    optEntry "password" (passwordError data) ++
    optEntry "profile_picture" (pictureError img data)
  (errors.isEmpty, errors)

/-- The per-field rule of `validate_profile_data`, keyed the way the
`errors` dictionary is keyed. -/
def profileFieldError (img : ImageFns) (data : ProfileData) (user_id : Nat)
    (users : List User) (key : String) : Option String :=
  if key = "full_name" then fullNameError data
  else if key = "email" then emailError data user_id users
  else if key = "bio" then bioError data
  else if key = "password" then passwordError data
  else if key = "profile_picture" then pictureError img data
  else none

/-- `update_profile` field application: `full_name` (stripped) when present. -/
def applyFullName (data : ProfileData) (u : User) : User :=
  match data.full_name with
  | some fn => { u with full_name := pyStrip fn }
  | none => u

/-- `update_profile` field application: `email` (stripped, lower-cased) when
present and different from the old email (`u.email` still holds `old_email`
at this point). -/
def applyEmail (data : ProfileData) (u : User) : User :=
  match data.email with
  | some e =>
    let newEmail := pyLower (pyStrip e)
    if newEmail ≠ u.email then { u with email := newEmail } else u
  | none => u

/-- `update_profile` field application: a present `bio` is replaced by its
sanitized form, `None` when the sanitized text is empty. -/
def applyBio (data : ProfileData) (u : User) : User :=
  match data.bio with
  | some b =>
    let sb := (validate_bio b).2
    { u with bio := if sb = "" then none else some sb }
  | none => u

/-- `update_profile` field application: a present nonempty `password` is
re-hashed (`hashPw` models `bcrypt.hashpw` with a fresh salt). -/
def applyPassword (hashPw : String → String) (data : ProfileData) (u : User) : User :=
  match data.password with
  | some p => if p = "" then u else { u with password_hash := hashPw p }
  | none => u

/-- `update_profile` picture upload: decode, sanitize, re-encode; the MIME
type is stored only when `validate_image` accepts the sanitized bytes; any
decode/sanitize exception becomes a `profile_picture` validation error. -/
def pictureApply (img : ImageFns) (data : ProfileData) (u : User) :
    Except String User :=
  match data.profile_picture_data with
  | some pic =>
    if pic = "" then .ok u
    else
      match img.decode_image pic with
      | .error e => .error e
      | .ok bytes =>
        match img.sanitize_image bytes with
        | .error e => .error e
        | .ok sbytes =>
          let u1 := { u with profile_picture_data := some (img.encode_image sbytes) }
          let r := img.validate_image sbytes
          if r.1 then .ok { u1 with profile_picture_mime_type := some r.2 } else .ok u1
  | none => .ok u

/-- `update_profile` removal branch: `remove_profile_picture` truthy clears
both picture columns. -/
def applyRemovePicture (data : ProfileData) (u : User) : User :=
  if data.remove_profile_picture then
    { u with profile_picture_data := none, profile_picture_mime_type := none }
  else u

/-- Outcome of `ProfileService.update_profile` (the raised exception or the
returned profile row). -/
inductive UpdateOutcome where
  | notFound
  | concurrentEdit
  | validationError (errors : List (String × String))
  | ok (profile : User)
deriving Repr, DecidableEq

/-- `ProfileService.update_profile`: load the user, detect concurrent edits,
validate, apply the present fields in source order (full_name, email, bio,
password, picture upload, picture removal), then commit — the column's
`onupdate` hook stamps `updated_at` with the commit-time clock reading
`now`.  Returns the outcome and the user table after the commit. -/
def update_profile (img : ImageFns) (hashPw : String → String)
    (users : List User) (user_id : Nat) (data : ProfileData)
    (submitted_updated_at : SubmittedTimestamp) (now : Nat) :
    UpdateOutcome × List User :=
  match users.find? (fun u => u.id = user_id) with
  | none => (.notFound, users)
  | some user =>
    if detect_concurrent_edit user submitted_updated_at then
      (.concurrentEdit, users)
    else
      let v := validate_profile_data img data user_id users
      if v.1 then
        let u4 := applyPassword hashPw data
          (applyBio data (applyEmail data (applyFullName data user)))
        match pictureApply img data u4 with
        | .error e => (.validationError [("profile_picture", e)], users)
        | .ok u5 =>
          let u7 := { applyRemovePicture data u5 with updated_at := some now }
          (.ok u7, users.map (fun x => if x.id = user_id then u7 else x))
      else (.validationError v.2, users)

/-! ## `src/logic/auth_service.py` -/

/-- The dictionary `AuthService.authenticate_user` returns (`user` flattened
to the user's id; the success dictionary carries no `message` key). -/
structure AuthResult where
  success : Bool
  authenticated : Bool
  message : Option String
  user_id : Option Nat
  expiry_in : Option Nat
deriving Repr, DecidableEq

/-- `AuthService.authenticate_user`: required-fields check, lookup by
normalized email (`email.lower().strip()`), bcrypt verification (`verify`
models `AuthService.verify_password`), then session creation.  `newHash`,
`newId` and `now` feed `create_session`. -/
def authenticate_user (verify : String → String → Bool) (users : List User)
    (sessions : SessionDB) (email password : String) (newHash : String)
    (newId : Nat) (now : Nat) : AuthResult × SessionDB :=
  if email = "" ∨ password = "" then
    ({ success := false, authenticated := false,
       message := some "Email and password are required",
       user_id := none, expiry_in := none }, sessions)
  else
    match users.find? (fun u => u.email = pyStrip (pyLower email)) with
    | none =>
      ({ success := false, authenticated := false,
         message := some "Invalid email or password",
         user_id := none, expiry_in := none }, sessions)
    | some user =>
      if ¬ verify password user.password_hash then
        ({ success := false, authenticated := false,
           message := some "Invalid email or password",
           user_id := none, expiry_in := none }, sessions)
      else
        let r := create_session sessions user newHash newId now
        ({ success := true, authenticated := true, message := none,
           user_id := some user.id, expiry_in := some r.2 }, r.1)

/-! ## `src/logic/contact_service.py` and the `/contact` route -/

/-- `ContactService` length constants. -/
def MIN_NAME_LENGTH : Nat := 2
/-- `ContactService` length constants. -/
def MAX_NAME_LENGTH : Nat := 100
/-- `ContactService` length constants. -/
def MIN_SUBJECT_LENGTH : Nat := 5
/-- `ContactService` length constants. -/
def MAX_SUBJECT_LENGTH : Nat := 200
/-- `ContactService` length constants. -/
def MIN_MESSAGE_LENGTH : Nat := 10
/-- `ContactService` length constants. -/
def MAX_MESSAGE_LENGTH : Nat := 2000

/-- A `(is_valid, error)` pair viewed as an optional error
(`None` when the check passed). -/
def checkEntry (r : Bool × Option String) : Option String :=
  if r.1 then none else some (r.2.getD "")

/-- A `(is_valid, error)` pair's contribution to an errors dictionary
(`if not is_valid: errors[key] = error`). -/
def optEntryB (key : String) (r : Bool × Option String) : List (String × String) :=
  optEntry key (checkEntry r)

/-- `ContactService.validate_contact_data`: the four field blocks run
unconditionally and each appends at most one entry. -/
def validate_contact_data (name email subject message : String) :
    Bool × List (String × String) :=
  let errors :=
    optEntryB "name" (validate_name_util name MIN_NAME_LENGTH MAX_NAME_LENGTH) ++
    optEntryB "email" (validate_email_util email) ++
    optEntryB "subject"
      (validate_text_length_util subject "Subject" MIN_SUBJECT_LENGTH MAX_SUBJECT_LENGTH) ++
    optEntryB "message"
      (validate_text_length_util message "Message" MIN_MESSAGE_LENGTH MAX_MESSAGE_LENGTH)
  (errors.isEmpty, errors)

/-- The per-field rule of `validate_contact_data`, keyed the way the
errors dictionary is keyed. -/
def contactFieldError (name email subject message : String) (key : String) :
    Option String :=
  if key = "name" then
    checkEntry (validate_name_util name MIN_NAME_LENGTH MAX_NAME_LENGTH)
  else if key = "email" then
    checkEntry (validate_email_util email)
  else if key = "subject" then
    checkEntry (validate_text_length_util subject "Subject"
      MIN_SUBJECT_LENGTH MAX_SUBJECT_LENGTH)
  else if key = "message" then
    checkEntry (validate_text_length_util message "Message"
      MIN_MESSAGE_LENGTH MAX_MESSAGE_LENGTH)
  else none

/-- Responses of the `/contact` POST handler, up to the persistence step:
a 422 per-field required error, a 400 validation failure, or the 201
success path (persist + emails, not modelled further). -/
inductive ContactResponse where
  | requiredFieldError (message : String)
  | validationFailure (errors : List (String × String))
  | submitted
deriving Repr, DecidableEq

/-- The `/contact` POST handler (`main_routes.contact`): required-field
checks in the order name, email, subject, message, each with its own
message, before delegating to `ContactService.submit_contact_form`, which
first runs `validate_contact_data`. -/
def contact_post (name email subject message : String) : ContactResponse :=
  if name = "" then .requiredFieldError "Name cannot be empty"
  else if email = "" then .requiredFieldError "Email cannot be empty"
  else if subject = "" then .requiredFieldError "Subject cannot be empty"
  else if message = "" then .requiredFieldError "Message cannot be empty"
  else
    let v := validate_contact_data name email subject message
    if v.1 then .submitted else .validationFailure v.2

/-! ## Concrete fixtures for witnesses and counterexamples -/

/-- Image functions with every call succeeding (concrete instantiation of
the abstract library surface). -/
def idImageFns : ImageFns :=
  { decode_image := fun _ => .ok [],
    sanitize_image := fun b => .ok b,
    encode_image := fun _ => "",
    validate_image := fun _ => (true, "image/png") }

/-- A user row fixture. -/
def aliceUser : User :=
  { id := 1, email := "alice@example.com", full_name := "Alice",
    password_hash := "hash0", bio := some "hi",
    profile_picture_data := none, profile_picture_mime_type := none,
    created_at := 0, updated_at := some 10 }

/-- An update submitting only the user's own email (a field set that is
valid on its own). -/
def emailOnlyData : ProfileData := { email := some "alice@example.com" }

/-- An update submitting the required fields with unchanged values. -/
def sameValuesData : ProfileData :=
  { full_name := some "Alice", email := some "alice@example.com" }

/-- A field set in which two supplied fields each violate their rule. -/
def badProfileData : ProfileData :=
  { full_name := some "A", email := some "bad" }

/-- A second user row fixture (for authentication). -/
def bobUser : User :=
  { id := 2, email := "bob@example.com", full_name := "Bob",
    password_hash := "hash1", bio := none,
    profile_picture_data := none, profile_picture_mime_type := none,
    created_at := 0, updated_at := some 3 }

/-- A session row fixture. -/
def sessionRow : CoatHanger :=
  { id := 7, user_id := 1, session_hash := "abc",
    user_data := some { email := "alice@example.com", full_name := "Alice", user_id := 1 },
    created_at := 100, updated_at := some 100 }

/-! ## General list lemmas -/

/-- When a filter returns a single row, `first()` returns that row. -/
theorem find?_of_filter_singleton {α : Type} {p : α → Bool} :
    ∀ {l : List α} {a : α}, l.filter p = [a] → l.find? p = some a := by
  intro l
  induction l with
  | nil => intro a hfa; simp at hfa
  | cons x xs ih =>
    intro a hfa
    by_cases hx : p x
    · rw [List.filter_cons_of_pos hx] at hfa
      rw [List.find?_cons_of_pos _ hx]
      injection hfa with h1 h2
      rw [h1]
    · rw [List.filter_cons_of_neg hx] at hfa
      rw [List.find?_cons_of_neg _ hx]
      exact ih hfa

/-- Deleting the unique matching row leaves no matching row. -/
theorem filter_eraseP_of_filter_singleton {α : Type} {p : α → Bool} :
    ∀ {l : List α} {a : α}, l.filter p = [a] → (l.eraseP p).filter p = [] := by
  intro l
  induction l with
  | nil => intro a hfa; simp at hfa
  | cons x xs ih =>
    intro a hfa
    by_cases hx : p x
    · rw [List.filter_cons_of_pos hx] at hfa
      injection hfa with h1 h2
      rw [List.eraseP_cons_of_pos hx]
      exact h2
    · rw [List.filter_cons_of_neg hx] at hfa
      rw [List.eraseP_cons_of_neg hx, List.filter_cons_of_neg hx]
      exact ih hfa

/-- A table shrunk row-wise keeps the at-most-one-session invariant. -/
theorem inv_of_sublist {db' db : SessionDB} (hs : List.Sublist db' db)
    (hinv : AtMostOneSessionPerUser db) : AtMostOneSessionPerUser db' := by
  intro uid
  have hsub : List.Sublist (sessionsFor db' uid) (sessionsFor db uid) :=
    List.Sublist.filter _ hs
  exact le_trans hsub.length_le (hinv uid)

/-- Renewing a row by hash does not change any user's session count. -/
theorem sessionsFor_renewInDb (db : SessionDB) (h : String) (now uid : Nat) :
    (sessionsFor (renewInDb db h now) uid).length = (sessionsFor db uid).length := by
  simp only [sessionsFor, renewInDb]
  rw [List.filter_map]
  have hpf : ((fun s : CoatHanger => decide (s.user_id = uid)) ∘
      (fun s : CoatHanger => if s.session_hash = h then s.renew now else s))
      = (fun s : CoatHanger => decide (s.user_id = uid)) := by
    funext r
    by_cases hr : r.session_hash = h
    · simp [hr, CoatHanger.renew]
    · simp [hr]
  rw [hpf, List.length_map]

/-- `create_session` leaves its user with exactly one row. -/
theorem sessionsFor_create_self (db : SessionDB) (u : User) (nh : String)
    (i now : Nat) : (sessionsFor ((create_session db u nh i now).1) u.id).length = 1 := by
  simp only [create_session, delete_user_sessions, sessionsFor]
  rw [List.filter_append, List.filter_filter]
  have h1 : (db.filter (fun a => decide (a.user_id = u.id) &&
      decide (¬ (a.user_id = u.id)))) = [] := by
    apply List.filter_eq_nil_iff.mpr
    intro a _
    by_cases ha : a.user_id = u.id <;> simp [ha]
  rw [h1]
  simp

/-- `create_session` does not grow any other user's session count. -/
theorem sessionsFor_create_other (db : SessionDB) (u : User) (nh : String)
    (i now uid : Nat) (hne : uid ≠ u.id) :
    (sessionsFor ((create_session db u nh i now).1) uid).length
      ≤ (sessionsFor db uid).length := by
  simp only [create_session, delete_user_sessions, sessionsFor]
  rw [List.filter_append]
  have h2 : (List.filter (fun s : CoatHanger => decide (s.user_id = uid))
      [{ id := i, user_id := u.id, session_hash := nh,
         user_data := some { email := u.email, full_name := u.full_name, user_id := u.id },
         created_at := now, updated_at := some now }]) = [] := by
    simp [Ne.symm hne]
  rw [h2, List.append_nil]
  exact List.Sublist.length_le
    (List.Sublist.filter _ (List.filter_sublist db))

/-- The state of the session table after `get_current_user`: unchanged, one
row lazily deleted, or one row renewed. -/
theorem get_current_user_table (tok : Option String) (db : SessionDB) (now : Nat) :
    (get_current_user tok db now).2 = db ∨
    (∃ p, (get_current_user tok db now).2 = db.eraseP p) ∨
    (∃ h, (get_current_user tok db now).2 = renewInDb db h now) := by
  cases tok with
  | none => left; rfl
  | some h =>
    simp only [get_current_user, find_by_session_hash]
    cases hfind : db.find? (fun s => s.session_hash = h) with
    | none => left; rfl
    | some ch =>
      by_cases hexp : ch.is_expired now
      · right; left
        exact ⟨fun s => s.session_hash = h, by simp [hexp]⟩
      · right; right
        exact ⟨h, by simp [hexp]⟩

/-- The state of the session table after `logout_user`: unchanged or with
one row deleted. -/
theorem logout_user_table (tok : Option String) (db : SessionDB) (now : Nat) :
    (logout_user tok db now).2 = db ∨
    ∃ p, (logout_user tok db now).2 = db.eraseP p := by
  cases tok with
  | none => left; rfl
  | some h =>
    simp only [logout_user, find_by_session_hash]
    cases hfind : db.find? (fun s => s.session_hash = h) with
    | none => left; rfl
    | some ch =>
      by_cases hexp : ch.is_expired now
      · right
        exact ⟨fun s => s.session_hash = h, by simp [hexp]⟩
      · right
        exact ⟨fun s => s.session_hash = ch.session_hash, by simp [hexp]⟩

/-! ## Claims -/

/-- **C1.** For every session row, an authenticated access at time `now`
with `now - updated_at < 600` reports authenticated and resets `updated_at`
to `now` (sliding window); an access with `now - updated_at >= 600` deletes
the session row and reports not authenticated; a missing token reports not
authenticated. -/
theorem session_sliding_window
    (db : SessionDB) (h : String) (now u : Nat) (s : CoatHanger)
    (hone : db.filter (fun r => r.session_hash = h) = [s])
    (hupd : s.updated_at = some u) :
    (now - u < SESSION_TIMEOUT_SECONDS →
      (get_current_user (some h) db now).1 = some s.user_id ∧
      ((get_current_user (some h) db now).2.filter (fun r => r.session_hash = h))
        = [{ s with updated_at := some now }]) ∧
    (now - u ≥ SESSION_TIMEOUT_SECONDS →
      (get_current_user (some h) db now).1 = none ∧
      ((get_current_user (some h) db now).2.filter (fun r => r.session_hash = h)) = []) ∧
    (get_current_user none db now).1 = none := by
  have hfind : db.find? (fun r => r.session_hash = h) = some s :=
    find?_of_filter_singleton hone
  have hmem : s ∈ db.filter (fun r => r.session_hash = h) := by
    rw [hone]; exact List.mem_singleton.mpr rfl
  have hsh : s.session_hash = h := by
    have := (List.mem_filter.mp hmem).2
    simpa using this
  refine ⟨?_, ?_, rfl⟩
  · intro hfresh
    have hexp : s.is_expired now = false := by
      simp only [CoatHanger.is_expired, hupd, SESSION_TIMEOUT_SECONDS]
      simp only [ge_iff_le, decide_eq_false_iff_not, not_le]
      simp only [SESSION_TIMEOUT_SECONDS] at hfresh
      omega
    have hgcu : get_current_user (some h) db now
        = (some s.user_id, renewInDb db h now) := by
      simp [get_current_user, find_by_session_hash, hfind, hexp]
    rw [hgcu]
    refine ⟨rfl, ?_⟩
    show (renewInDb db h now).filter _ = _
    unfold renewInDb
    rw [List.filter_map]
    have hpf : ((fun r : CoatHanger => decide (r.session_hash = h)) ∘
        (fun s : CoatHanger => if s.session_hash = h then s.renew now else s))
        = (fun r : CoatHanger => decide (r.session_hash = h)) := by
      funext r
      by_cases hr : r.session_hash = h
      · simp [hr, CoatHanger.renew]
      · simp [hr]
    rw [hpf, hone]
    simp [hsh, CoatHanger.renew]
  · intro hexpired
    have hexp : s.is_expired now = true := by
      simp only [CoatHanger.is_expired, hupd, SESSION_TIMEOUT_SECONDS]
      simp only [ge_iff_le, decide_eq_true_eq]
      simp only [SESSION_TIMEOUT_SECONDS] at hexpired
      omega
    have hgcu : get_current_user (some h) db now
        = (none, db.eraseP (fun r => r.session_hash = h)) := by
      simp [get_current_user, find_by_session_hash, hfind, hexp]
    rw [hgcu]
    exact ⟨rfl, filter_eraseP_of_filter_singleton hone⟩

/-- Witness for C1: the fixture row (touched at 100) accessed at 300 with
hash `abc`; the missing-token case at the same table. -/
theorem session_sliding_window_witness :
    ((300 : Nat) - 100 < SESSION_TIMEOUT_SECONDS →
      (get_current_user (some "abc") [sessionRow] 300).1 = some sessionRow.user_id ∧
      ((get_current_user (some "abc") [sessionRow] 300).2.filter
        (fun r => r.session_hash = "abc")) = [{ sessionRow with updated_at := some 300 }]) ∧
    ((300 : Nat) - 100 ≥ SESSION_TIMEOUT_SECONDS →
      (get_current_user (some "abc") [sessionRow] 300).1 = none ∧
      ((get_current_user (some "abc") [sessionRow] 300).2.filter
        (fun r => r.session_hash = "abc")) = []) ∧
    (get_current_user none [sessionRow] 300).1 = none :=
  session_sliding_window [sessionRow] "abc" 300 100 sessionRow (by decide) rfl

/-- **C2.** `create_session` leaves exactly one session row for its user (it
deletes all rows of the user, then inserts one); logging in twice in a row
leaves exactly one row; at most one session row per user is preserved by
every session operation; and under that invariant every user has at most one
live (non-expired) row. -/
theorem single_session_per_user :
    (∀ db (u : User) nh i now,
      (sessionsFor ((create_session db u nh i now).1) u.id).length = 1) ∧
    (∀ db (u : User) nh1 i1 now1 nh2 i2 now2,
      (sessionsFor ((create_session ((create_session db u nh1 i1 now1).1)
        u nh2 i2 now2).1) u.id).length = 1) ∧
    (∀ db op, AtMostOneSessionPerUser db →
      AtMostOneSessionPerUser (applySessionOp db op)) ∧
    (∀ db now uid, AtMostOneSessionPerUser db →
      (liveSessionsFor db uid now).length ≤ 1) := by
  refine ⟨sessionsFor_create_self, ?_, ?_, ?_⟩
  · intro db u nh1 i1 now1 nh2 i2 now2
    exact sessionsFor_create_self _ u nh2 i2 now2
  · intro db op hinv
    cases op with
    | login u nh i now =>
      intro uid
      by_cases hu : uid = u.id
      · subst hu
        exact le_of_eq (sessionsFor_create_self db u nh i now)
      · exact le_trans (sessionsFor_create_other db u nh i now uid hu) (hinv uid)
    | access tok now =>
      rcases get_current_user_table tok db now with hdb | ⟨p, hdb⟩ | ⟨hh, hdb⟩
      · simpa only [applySessionOp, hdb] using hinv
      · simp only [applySessionOp, hdb]
        exact inv_of_sublist (List.eraseP_sublist db) hinv
      · simp only [applySessionOp, hdb]
        intro uid
        rw [sessionsFor_renewInDb]
        exact hinv uid
    | logoutOp tok now =>
      rcases logout_user_table tok db now with hdb | ⟨p, hdb⟩
      · simpa only [applySessionOp, hdb] using hinv
      · simp only [applySessionOp, hdb]
        exact inv_of_sublist (List.eraseP_sublist db) hinv
    | cleanup now =>
      exact inv_of_sublist (List.filter_sublist db) hinv
  · intro db now uid hinv
    have hsub : List.Sublist (liveSessionsFor db uid now) (sessionsFor db uid) := by
      apply List.monotone_filter_right
      intro a ha
      simp only [decide_eq_true_eq] at ha ⊢
      exact ha.1
    exact le_trans hsub.length_le (hinv uid)

/-- Witness for C2: two consecutive logins with the fixture user, the
invariant parts at concrete tables. -/
theorem single_session_per_user_witness :
    (sessionsFor ((create_session ((create_session [] aliceUser "h1" 1 5).1)
      aliceUser "h2" 2 6).1) aliceUser.id).length = 1 ∧
    AtMostOneSessionPerUser (applySessionOp [] (SessionOp.cleanup 0)) ∧
    (liveSessionsFor [sessionRow] 1 300).length ≤ 1 := by
  refine ⟨single_session_per_user.2.1 [] aliceUser "h1" 1 5 "h2" 2 6, ?_, ?_⟩
  · exact single_session_per_user.2.2.1 [] (SessionOp.cleanup 0)
      (by intro uid; simp [sessionsFor, AtMostOneSessionPerUser])
  · exact single_session_per_user.2.2.2 [sessionRow] 300 1
      (by intro uid
          exact le_trans (List.Sublist.length_le (List.filter_sublist _)) (by simp))

/-- **C3.** For every existing user and every field dictionary, an update
whose client timestamp parses to a time strictly older than the user's
current `updated_at` fails with `ConcurrentEdit`, whatever the submitted
fields are: the conflict check runs before field validation and before any
field is applied (the user table is returned unchanged). -/
theorem stale_timestamp_fails_concurrent_edit
    (img : ImageFns) (hashPw : String → String) (users : List User)
    (uid : Nat) (data : ProfileData) (t now cur : Nat) (u : User)
    (hu : users.find? (fun x => x.id = uid) = some u)
    (hcur : u.updated_at = some cur)
    (ht : t < cur) :
    update_profile img hashPw users uid data (.parsed t) now
      = (.concurrentEdit, users) := by
  have hdet : detect_concurrent_edit u (.parsed t) = true := by
    simp only [detect_concurrent_edit, hcur, gt_iff_lt, decide_eq_true_eq]
    omega
  simp [update_profile, hu, hdet]

/-- Witness for C3: the fixture user (updated at 10) with a client timestamp
parsing to 5 and a valid field set. -/
theorem stale_timestamp_witness :
    update_profile idImageFns id [aliceUser] 1 emailOnlyData (.parsed 5) 11
      = (.concurrentEdit, [aliceUser]) :=
  stale_timestamp_fails_concurrent_edit idImageFns id [aliceUser] 1 emailOnlyData
    5 11 10 aliceUser rfl rfl (by decide)

/-- **C4.** An empty/None or unparseable client timestamp makes
`detect_concurrent_edit` return `False` for every user state, so
`update_profile` never fails with `ConcurrentEdit` and proceeds to validate
and apply: omitting or malforming the timestamp bypasses optimistic-lock
conflict detection entirely. -/
theorem missing_timestamp_bypasses_lock :
    (∀ u : User, detect_concurrent_edit u .missing = false ∧
      detect_concurrent_edit u .unparseable = false) ∧
    (∀ img hashPw users uid data now ts,
      ts = SubmittedTimestamp.missing ∨ ts = SubmittedTimestamp.unparseable →
      (update_profile img hashPw users uid data ts now).1
        ≠ UpdateOutcome.concurrentEdit) := by
  constructor
  · intro u; exact ⟨rfl, rfl⟩
  · intro img hashPw users uid data now ts hts
    have hdet : ∀ u : User, detect_concurrent_edit u ts = false := by
      rcases hts with h | h <;> subst h <;> intro u <;> rfl
    simp only [update_profile]
    cases hfind : users.find? (fun x => x.id = uid) with
    | none => simp
    | some u =>
      simp only [hdet u, Bool.false_eq_true, if_false]
      by_cases hv : (validate_profile_data img data uid users).1
      · simp only [hv, if_true]
        cases hpic : pictureApply img data
            (applyPassword hashPw data
              (applyBio data (applyEmail data (applyFullName data u)))) with
        | error e => simp [hpic]
        | ok u5 => simp [hpic]
      · simp [hv]

/-- Witness for C4: the fixture user with a missing timestamp. -/
theorem missing_timestamp_witness :
    (detect_concurrent_edit aliceUser .missing = false ∧
      detect_concurrent_edit aliceUser .unparseable = false) ∧
    (update_profile idImageFns id [aliceUser] 1 emailOnlyData .missing 11).1
      ≠ UpdateOutcome.concurrentEdit :=
  ⟨missing_timestamp_bypasses_lock.1 aliceUser,
   missing_timestamp_bypasses_lock.2 idImageFns id [aliceUser] 1 emailOnlyData 11
     .missing (Or.inl rfl)⟩

/-- A field block contributes nothing to `errors` exactly when its check
passes. -/
theorem optEntry_eq_nil {key : String} {o : Option String} :
    optEntry key o = [] ↔ o = none := by
  cases o <;> simp [optEntry]

/-- A passing profile validation implies the two unconditional field checks
passed. -/
theorem validate_profile_ok_required {img : ImageFns} {data : ProfileData}
    {uid : Nat} {users : List User}
    (hv : (validate_profile_data img data uid users).1 = true) :
    fullNameError data = none ∧ emailError data uid users = none := by
  simp only [validate_profile_data, List.isEmpty_eq_true, List.append_eq_nil] at hv
  refine ⟨?_, ?_⟩
  · cases hfe : fullNameError data with
    | none => rfl
    | some m => rw [hfe] at hv; simp [optEntry] at hv
  · cases hee : emailError data uid users with
    | none => rfl
    | some m => rw [hee] at hv; simp [optEntry] at hv

/-- An absent `full_name` key always fails the required check. -/
theorem fullNameError_of_absent {data : ProfileData} (h : data.full_name = none) :
    fullNameError data = some "Full name is required" := by
  unfold fullNameError
  rw [h]
  decide

/-- An absent `email` key always fails the required check. -/
theorem emailError_of_absent {data : ProfileData} {uid : Nat} {users : List User}
    (h : data.email = none) :
    emailError data uid users = some "Email is required" := by
  unfold emailError
  rw [h]
  have hc : pyLower (pyStrip ((none : Option String).getD "")) = "" := by decide
  rw [hc]
  simp

/-- `applyFullName` touches only `full_name`. -/
theorem applyFullName_frame (d : ProfileData) (u : User) :
    (applyFullName d u).email = u.email ∧ (applyFullName d u).bio = u.bio ∧
    (applyFullName d u).password_hash = u.password_hash ∧
    (applyFullName d u).profile_picture_data = u.profile_picture_data ∧
    (applyFullName d u).profile_picture_mime_type = u.profile_picture_mime_type := by
  unfold applyFullName
  split <;> exact ⟨rfl, rfl, rfl, rfl, rfl⟩

/-- `applyEmail` touches only `email`. -/
theorem applyEmail_frame (d : ProfileData) (u : User) :
    (applyEmail d u).full_name = u.full_name ∧ (applyEmail d u).bio = u.bio ∧
    (applyEmail d u).password_hash = u.password_hash ∧
    (applyEmail d u).profile_picture_data = u.profile_picture_data ∧
    (applyEmail d u).profile_picture_mime_type = u.profile_picture_mime_type := by
  simp only [applyEmail]
  split
  · split <;> exact ⟨rfl, rfl, rfl, rfl, rfl⟩
  · exact ⟨rfl, rfl, rfl, rfl, rfl⟩

/-- `applyBio` touches only `bio`. -/
theorem applyBio_frame (d : ProfileData) (u : User) :
    (applyBio d u).full_name = u.full_name ∧ (applyBio d u).email = u.email ∧
    (applyBio d u).password_hash = u.password_hash ∧
    (applyBio d u).profile_picture_data = u.profile_picture_data ∧
    (applyBio d u).profile_picture_mime_type = u.profile_picture_mime_type := by
  simp only [applyBio]
  split <;> exact ⟨rfl, rfl, rfl, rfl, rfl⟩

/-- `applyPassword` touches only `password_hash`. -/
theorem applyPassword_frame (hp : String → String) (d : ProfileData) (u : User) :
    (applyPassword hp d u).full_name = u.full_name ∧
    (applyPassword hp d u).email = u.email ∧
    (applyPassword hp d u).bio = u.bio ∧
    (applyPassword hp d u).profile_picture_data = u.profile_picture_data ∧
    (applyPassword hp d u).profile_picture_mime_type = u.profile_picture_mime_type := by
  simp only [applyPassword]
  split
  · split <;> exact ⟨rfl, rfl, rfl, rfl, rfl⟩
  · exact ⟨rfl, rfl, rfl, rfl, rfl⟩

/-- `applyRemovePicture` touches only the two picture columns. -/
theorem applyRemovePicture_frame (d : ProfileData) (u : User) :
    (applyRemovePicture d u).full_name = u.full_name ∧
    (applyRemovePicture d u).email = u.email ∧
    (applyRemovePicture d u).bio = u.bio ∧
    (applyRemovePicture d u).password_hash = u.password_hash := by
  unfold applyRemovePicture
  split <;> exact ⟨rfl, rfl, rfl, rfl⟩

/-- A successful picture upload touches only the two picture columns. -/
theorem pictureApply_ok_frame {img : ImageFns} {data : ProfileData} {u u5 : User}
    (h : pictureApply img data u = .ok u5) :
    u5.full_name = u.full_name ∧ u5.email = u.email ∧ u5.bio = u.bio ∧
    u5.password_hash = u.password_hash := by
  simp only [pictureApply] at h
  repeat' split at h
  all_goals first
    | (injection h with h2; subst h2; exact ⟨rfl, rfl, rfl, rfl⟩)
    | injection h

/-- An absent `bio` key leaves the row untouched by the bio block. -/
theorem applyBio_absent {d : ProfileData} (h : d.bio = none) (u : User) :
    applyBio d u = u := by
  simp [applyBio, h]

/-- An absent or empty `password` key leaves the hash untouched. -/
theorem applyPassword_absent {d : ProfileData} (hp : String → String)
    (h : d.password = none ∨ d.password = some "") (u : User) :
    applyPassword hp d u = u := by
  rcases h with h | h <;> simp [applyPassword, h]

/-- An absent or empty `profile_picture_data` key skips the upload branch. -/
theorem pictureApply_absent {img : ImageFns} {d : ProfileData}
    (h : d.profile_picture_data = none ∨ d.profile_picture_data = some "")
    (u : User) : pictureApply img d u = .ok u := by
  rcases h with h | h <;> simp [pictureApply, h]

/-- A falsy `remove_profile_picture` skips the removal branch. -/
theorem applyRemovePicture_false {d : ProfileData}
    (h : d.remove_profile_picture = false) (u : User) :
    applyRemovePicture d u = u := by
  simp [applyRemovePicture, h]

/-- Counterexample to C5 as stated: submitting only the user's own (valid)
email fails with `Full name is required` — the absence of `full_name` by
itself makes the update fail — while the same update with `full_name`
present succeeds. -/
theorem partial_update_counterexample :
    (update_profile idImageFns id [aliceUser] 1 emailOnlyData .missing 11).1
      = .validationError [("full_name", "Full name is required")] ∧
    (update_profile idImageFns id [aliceUser] 1 sameValuesData .missing 11).1
      = .ok { aliceUser with updated_at := some 11 } := by
  constructor <;> rfl

/-- **C5 (amended).** `update_profile` applies only the fields present in
the input: on a successful update an absent `bio`, `password` or picture
field keeps its prior value (and its absence does not cause a failure),
but `full_name` and `email` are required on every update — a successful
update always had both keys present, and omitting either fails validation
with a required-field error. -/
theorem partial_update_semantics
    (img : ImageFns) (hashPw : String → String) (users : List User)
    (uid : Nat) (data : ProfileData) (ts : SubmittedTimestamp) (now : Nat)
    (u u' : User) (db' : List User)
    (hu : users.find? (fun x => x.id = uid) = some u)
    (hok : update_profile img hashPw users uid data ts now = (.ok u', db')) :
    (data.bio = none → u'.bio = u.bio) ∧
    ((data.password = none ∨ data.password = some "") →
      u'.password_hash = u.password_hash) ∧
    ((data.profile_picture_data = none ∨ data.profile_picture_data = some "") →
      data.remove_profile_picture = false →
      u'.profile_picture_data = u.profile_picture_data ∧
      u'.profile_picture_mime_type = u.profile_picture_mime_type) ∧
    data.full_name ≠ none ∧ data.email ≠ none := by
  simp only [update_profile, hu] at hok
  by_cases hdet : detect_concurrent_edit u ts
  · simp [hdet] at hok
  rw [Bool.not_eq_true] at hdet
  simp only [hdet, Bool.false_eq_true, if_false] at hok
  by_cases hv : (validate_profile_data img data uid users).1
  swap
  · rw [Bool.not_eq_true] at hv
    simp only [hv, Bool.false_eq_true, if_false] at hok
    rw [Prod.mk.injEq] at hok
    exact absurd hok.1 (by simp)
  simp only [hv, if_true] at hok
  obtain ⟨hfe, hee⟩ := validate_profile_ok_required hv
  have hfn : data.full_name ≠ none := by
    intro habs
    rw [fullNameError_of_absent habs] at hfe
    exact absurd hfe (by simp)
  have hem : data.email ≠ none := by
    intro habs
    rw [emailError_of_absent habs] at hee
    exact absurd hee (by simp)
  set u4 := applyPassword hashPw data
    (applyBio data (applyEmail data (applyFullName data u))) with hu4
  cases hpic : pictureApply img data u4 with
  | error e =>
    rw [hpic] at hok
    rw [Prod.mk.injEq] at hok
    exact absurd hok.1 (by simp)
  | ok u5 =>
    rw [hpic] at hok
    rw [Prod.mk.injEq] at hok
    have hu' : u' = { applyRemovePicture data u5 with updated_at := some now } := by
      have := hok.1
      injection this with h1
      exact h1.symm
    refine ⟨?_, ?_, ?_, hfn, hem⟩
    · intro hbio
      rw [hu']
      show (applyRemovePicture data u5).bio = u.bio
      rw [(applyRemovePicture_frame data u5).2.2.1]
      rw [(pictureApply_ok_frame hpic).2.2.1]
      rw [hu4]
      rw [(applyPassword_frame hashPw data _).2.2.1]
      rw [applyBio_absent hbio]
      rw [(applyEmail_frame data _).2.1]
      exact (applyFullName_frame data u).2.1
    · intro hpw
      rw [hu']
      show (applyRemovePicture data u5).password_hash = u.password_hash
      rw [(applyRemovePicture_frame data u5).2.2.2]
      rw [(pictureApply_ok_frame hpic).2.2.2]
      rw [hu4]
      rw [applyPassword_absent hashPw hpw]
      rw [(applyBio_frame data _).2.2.1]
      rw [(applyEmail_frame data _).2.2.1]
      exact (applyFullName_frame data u).2.2.1
    · intro hpd hrm
      have h5 : u5 = u4 := by
        have h := @pictureApply_absent img data hpd u4
        rw [hpic] at h
        simpa using h
      rw [hu', applyRemovePicture_false hrm, h5, hu4]
      constructor
      · show (applyPassword hashPw data _).profile_picture_data = _
        rw [(applyPassword_frame hashPw data _).2.2.2.1]
        rw [(applyBio_frame data _).2.2.2.1]
        rw [(applyEmail_frame data _).2.2.2.1]
        exact (applyFullName_frame data u).2.2.2.1
      · show (applyPassword hashPw data _).profile_picture_mime_type = _
        rw [(applyPassword_frame hashPw data _).2.2.2.2]
        rw [(applyBio_frame data _).2.2.2.2]
        rw [(applyEmail_frame data _).2.2.2.2]
        exact (applyFullName_frame data u).2.2.2.2

/-- Witness for C5: the successful same-values update of the fixture user
keeps absent fields untouched and had both required keys present. -/
theorem partial_update_witness :
    (sameValuesData.bio = none →
      ({ aliceUser with updated_at := some 11 } : User).bio = aliceUser.bio) ∧
    ((sameValuesData.password = none ∨ sameValuesData.password = some "") →
      ({ aliceUser with updated_at := some 11 } : User).password_hash
        = aliceUser.password_hash) ∧
    ((sameValuesData.profile_picture_data = none ∨
        sameValuesData.profile_picture_data = some "") →
      sameValuesData.remove_profile_picture = false →
      ({ aliceUser with updated_at := some 11 } : User).profile_picture_data
        = aliceUser.profile_picture_data ∧
      ({ aliceUser with updated_at := some 11 } : User).profile_picture_mime_type
        = aliceUser.profile_picture_mime_type) ∧
    sameValuesData.full_name ≠ none ∧ sameValuesData.email ≠ none :=
  partial_update_semantics idImageFns id [aliceUser] 1 sameValuesData .missing 11
    aliceUser { aliceUser with updated_at := some 11 }
    [{ aliceUser with updated_at := some 11 }] rfl (by rfl)

/-- Membership in a field block's contribution. -/
theorem mem_optEntry {key k m : String} {o : Option String} :
    (k, m) ∈ optEntry key o ↔ (k = key ∧ o = some m) := by
  cases o with
  | none => simp [optEntry]
  | some v =>
    simp only [optEntry, List.mem_singleton, Prod.mk.injEq, Option.some.injEq]
    constructor
    · rintro ⟨rfl, rfl⟩; exact ⟨rfl, rfl⟩
    · rintro ⟨rfl, rfl⟩; exact ⟨rfl, rfl⟩

/-- The `errors` dictionary of `validate_profile_data` holds exactly the
violated field rules. -/
theorem mem_validate_profile_errors (img : ImageFns) (data : ProfileData)
    (uid : Nat) (users : List User) (k m : String) :
    ((k, m) ∈ (validate_profile_data img data uid users).2 ↔
      profileFieldError img data uid users k = some m) := by
  simp only [validate_profile_data, List.mem_append, mem_optEntry]
  constructor
  · rintro ((((⟨rfl, h⟩ | ⟨rfl, h⟩) | ⟨rfl, h⟩) | ⟨rfl, h⟩) | ⟨rfl, h⟩) <;>
      simp [profileFieldError, h]
  · intro h
    by_cases e1 : k = "full_name"
    · subst e1
      refine Or.inl (Or.inl (Or.inl (Or.inl ⟨rfl, ?_⟩)))
      simpa [profileFieldError] using h
    by_cases e2 : k = "email"
    · subst e2
      refine Or.inl (Or.inl (Or.inl (Or.inr ⟨rfl, ?_⟩)))
      simpa [profileFieldError] using h
    by_cases e3 : k = "bio"
    · subst e3
      refine Or.inl (Or.inl (Or.inr ⟨rfl, ?_⟩))
      simpa [profileFieldError] using h
    by_cases e4 : k = "password"
    · subst e4
      refine Or.inl (Or.inr ⟨rfl, ?_⟩)
      simpa [profileFieldError] using h
    by_cases e5 : k = "profile_picture"
    · subst e5
      refine Or.inr ⟨rfl, ?_⟩
      simpa [profileFieldError] using h
    simp [profileFieldError, e1, e2, e3, e4, e5] at h

/-- **C6.** Profile validation collects all violations: when two different
supplied fields each violate their rule, the `ValidationError` raised by
`update_profile` carries the errors map, that map has an entry for each of
the two violating fields, and every entry of the map corresponds to a
violated field rule (so all violating fields are reported, not only the
first one found). -/
theorem validation_collects_all_violations
    (img : ImageFns) (hashPw : String → String) (users : List User)
    (uid : Nat) (data : ProfileData) (ts : SubmittedTimestamp) (now : Nat)
    (u : User) (k1 k2 m1 m2 : String)
    (hu : users.find? (fun x => x.id = uid) = some u)
    (hdet : detect_concurrent_edit u ts = false)
    (hne : k1 ≠ k2)
    (h1 : profileFieldError img data uid users k1 = some m1)
    (h2 : profileFieldError img data uid users k2 = some m2) :
    (update_profile img hashPw users uid data ts now).1
        = .validationError (validate_profile_data img data uid users).2 ∧
      (k1, m1) ∈ (validate_profile_data img data uid users).2 ∧
      (k2, m2) ∈ (validate_profile_data img data uid users).2 ∧
      ∀ k m, (k, m) ∈ (validate_profile_data img data uid users).2 →
        profileFieldError img data uid users k = some m := by
  have hmem1 : (k1, m1) ∈ (validate_profile_data img data uid users).2 :=
    (mem_validate_profile_errors img data uid users k1 m1).mpr h1
  have hv : (validate_profile_data img data uid users).1 = false := by
    show (validate_profile_data img data uid users).2.isEmpty = false
    cases hl : (validate_profile_data img data uid users).2 with
    | nil => rw [hl] at hmem1; simp at hmem1
    | cons a l => simp
  refine ⟨?_, hmem1,
    (mem_validate_profile_errors img data uid users k2 m2).mpr h2,
    fun k m hm => (mem_validate_profile_errors img data uid users k m).mp hm⟩
  simp [update_profile, hu, hdet, hv]

/-- Witness for C6: a one-character name and a malformed email violate two
rules at once; both appear in the raised map. -/
theorem validation_collects_witness :
    (update_profile idImageFns id [aliceUser] 1 badProfileData .missing 11).1
        = .validationError (validate_profile_data idImageFns badProfileData 1 [aliceUser]).2 ∧
      ("full_name", "Must be at least 2 characters")
        ∈ (validate_profile_data idImageFns badProfileData 1 [aliceUser]).2 ∧
      ("email", "Invalid email format")
        ∈ (validate_profile_data idImageFns badProfileData 1 [aliceUser]).2 :=
  have h := validation_collects_all_violations idImageFns id [aliceUser] 1
    badProfileData .missing 11 aliceUser "full_name" "email"
    "Must be at least 2 characters" "Invalid email format"
    rfl rfl (by decide) (by decide) (by decide)
  ⟨h.1, h.2.1, h.2.2.1⟩

/-- Every successful `update_profile` stamps the returned row's
`updated_at` with the commit clock reading. -/
theorem update_profile_ok_updated_at
    (img : ImageFns) (hashPw : String → String) (users : List User)
    (uid : Nat) (data : ProfileData) (ts : SubmittedTimestamp) (now : Nat)
    (u' : User) (db' : List User)
    (hok : update_profile img hashPw users uid data ts now = (.ok u', db')) :
    u'.updated_at = some now := by
  simp only [update_profile] at hok
  cases hfind : users.find? (fun x => x.id = uid) with
  | none =>
    rw [hfind] at hok
    rw [Prod.mk.injEq] at hok
    exact absurd hok.1 (by simp)
  | some u =>
    rw [hfind] at hok
    by_cases hdet : detect_concurrent_edit u ts
    · simp [hdet] at hok
    rw [Bool.not_eq_true] at hdet
    simp only [hdet, Bool.false_eq_true, if_false] at hok
    by_cases hv : (validate_profile_data img data uid users).1
    swap
    · rw [Bool.not_eq_true] at hv
      simp only [hv, Bool.false_eq_true, if_false] at hok
      rw [Prod.mk.injEq] at hok
      exact absurd hok.1 (by simp)
    simp only [hv, if_true] at hok
    cases hpic : pictureApply img data
        (applyPassword hashPw data
          (applyBio data (applyEmail data (applyFullName data u)))) with
    | error e =>
      rw [hpic] at hok
      rw [Prod.mk.injEq] at hok
      exact absurd hok.1 (by simp)
    | ok u5 =>
      rw [hpic] at hok
      rw [Prod.mk.injEq] at hok
      have h1 := hok.1
      injection h1 with h2
      rw [← h2]

/-- Counterexample to C7 as stated: a successful `update_profile` committed
at a clock reading equal to the row's current `updated_at` (two mutations
within one clock tick) leaves `updated_at` equal, not strictly increased;
`renew`/`save` at an unchanged reading likewise leaves it equal. -/
theorem updated_at_counterexample :
    (update_profile idImageFns id [aliceUser] 1 sameValuesData .missing 10).1
      = .ok { aliceUser with updated_at := some 10 } ∧
    aliceUser.updated_at = some 10 ∧
    (sessionRow.renew 100).updated_at = sessionRow.updated_at := by
  exact ⟨rfl, rfl, rfl⟩

/-- **C7 (amended).** Every persisted mutation stamps `updated_at` with the
current clock reading: `renew` (via `save`) always sets
`updated_at = now`, and every successful `update_profile` returns a row
with `updated_at = now`; consequently `updated_at` strictly increases
across two mutations exactly when the clock reading strictly advanced
between them, and stays equal when the clock reading is unchanged (see the
counterexample). -/
theorem updated_at_stamped_with_clock :
    (∀ (s : CoatHanger) (now : Nat), (s.renew now).updated_at = some now) ∧
    (∀ img hashPw users uid data ts now (u' : User),
      (update_profile img hashPw users uid data ts now).1 = .ok u' →
      u'.updated_at = some now) ∧
    (∀ (s : CoatHanger) (now t : Nat), s.updated_at = some t → t < now →
      ∃ t2, (s.renew now).updated_at = some t2 ∧ t < t2) := by
  refine ⟨fun s now => rfl, ?_, ?_⟩
  · intro img hashPw users uid data ts now u' hok
    have hpair : update_profile img hashPw users uid data ts now
        = (.ok u', (update_profile img hashPw users uid data ts now).2) := by
      rw [← hok]
    exact update_profile_ok_updated_at img hashPw users uid data ts now u' _ hpair
  · intro s now t ht hlt
    exact ⟨now, rfl, hlt⟩

/-- Witness for C7: the fixture session renewed at 300, and the successful
fixture profile update committed at 11. -/
theorem updated_at_stamped_witness :
    (sessionRow.renew 300).updated_at = some 300 ∧
    ({ aliceUser with updated_at := some 11 } : User).updated_at = some 11 :=
  ⟨updated_at_stamped_with_clock.1 sessionRow 300,
   updated_at_stamped_with_clock.2.1 idImageFns id [aliceUser] 1 sameValuesData
     .missing 11 { aliceUser with updated_at := some 11 } (by rfl)⟩

/-- **C8.** Authentication does not reveal account existence: with nonempty
credentials, the failure result when no user has the (normalized) email is
the very same record — same success flag, same authenticated flag, same
message text — as the failure result when the user exists but the password
check fails. -/
theorem no_account_enumeration
    (verify : String → String → Bool) (users1 users2 : List User)
    (sessions1 sessions2 : SessionDB) (email password : String)
    (nh1 nh2 : String) (i1 i2 now1 now2 : Nat) (u : User)
    (he : email ≠ "") (hp : password ≠ "")
    (h1 : users1.find? (fun x => x.email = pyStrip (pyLower email)) = none)
    (h2 : users2.find? (fun x => x.email = pyStrip (pyLower email)) = some u)
    (hv : verify password u.password_hash = false) :
    (authenticate_user verify users1 sessions1 email password nh1 i1 now1).1
      = (authenticate_user verify users2 sessions2 email password nh2 i2 now2).1 := by
  have hcond : ¬ (email = "" ∨ password = "") := by
    rintro (h | h)
    · exact he h
    · exact hp h
  simp only [authenticate_user, if_neg hcond, h1, h2, hv]
  simp

/-- Witness for C8: unknown email against an empty user table versus the
fixture user with an always-failing password check. -/
theorem no_account_enumeration_witness :
    (authenticate_user (fun _ _ => false) [] [] "bob@example.com" "pw" "h1" 1 5).1
      = (authenticate_user (fun _ _ => false) [bobUser] [] "bob@example.com" "pw"
          "h2" 2 6).1 :=
  no_account_enumeration (fun _ _ => false) [] [bobUser] [] [] "bob@example.com"
    "pw" "h1" "h2" 1 2 5 6 bobUser (by decide) (by decide) rfl (by decide) rfl

/-- The errors dictionary of `validate_contact_data` holds exactly the
violated field rules. -/
theorem mem_contact_errors (name email subject message k m : String) :
    ((k, m) ∈ (validate_contact_data name email subject message).2 ↔
      contactFieldError name email subject message k = some m) := by
  simp only [validate_contact_data, optEntryB, List.mem_append, mem_optEntry]
  constructor
  · rintro (((⟨rfl, h⟩ | ⟨rfl, h⟩) | ⟨rfl, h⟩) | ⟨rfl, h⟩) <;>
      simp [contactFieldError, h]
  · intro h
    by_cases e1 : k = "name"
    · subst e1
      refine Or.inl (Or.inl (Or.inl ⟨rfl, ?_⟩))
      simpa [contactFieldError] using h
    by_cases e2 : k = "email"
    · subst e2
      refine Or.inl (Or.inl (Or.inr ⟨rfl, ?_⟩))
      simpa [contactFieldError] using h
    by_cases e3 : k = "subject"
    · subst e3
      refine Or.inl (Or.inr ⟨rfl, ?_⟩)
      simpa [contactFieldError] using h
    by_cases e4 : k = "message"
    · subst e4
      refine Or.inr ⟨rfl, ?_⟩
      simpa [contactFieldError] using h
    simp [contactFieldError, e1, e2, e3, e4] at h

/-- **C9.** Contact submission uses two-tier error reporting: a missing
field short-circuits with its own distinct required-field message, checked
in the order name, email, subject, message, before any rule validation
runs; with all four fields present, the rule-validation map holds exactly
the failing field rules, and a failing validation is returned as that map. -/
theorem contact_two_tier (name email subject message : String) :
    (name = "" → contact_post name email subject message
      = .requiredFieldError "Name cannot be empty") ∧
    (name ≠ "" → email = "" → contact_post name email subject message
      = .requiredFieldError "Email cannot be empty") ∧
    (name ≠ "" → email ≠ "" → subject = "" →
      contact_post name email subject message
      = .requiredFieldError "Subject cannot be empty") ∧
    (name ≠ "" → email ≠ "" → subject ≠ "" → message = "" →
      contact_post name email subject message
      = .requiredFieldError "Message cannot be empty") ∧
    (name ≠ "" → email ≠ "" → subject ≠ "" → message ≠ "" →
      ((∀ k m, ((k, m) ∈ (validate_contact_data name email subject message).2 ↔
          contactFieldError name email subject message k = some m)) ∧
        ((validate_contact_data name email subject message).2 ≠ [] →
          contact_post name email subject message
            = .validationFailure (validate_contact_data name email subject message).2))) := by
  refine ⟨?_, ?_, ?_, ?_, ?_⟩
  · intro h; simp [contact_post, h]
  · intro h1 h2; simp [contact_post, h1, h2]
  · intro h1 h2 h3; simp [contact_post, h1, h2, h3]
  · intro h1 h2 h3 h4; simp [contact_post, h1, h2, h3, h4]
  · intro h1 h2 h3 h4
    refine ⟨fun k m => mem_contact_errors name email subject message k m, ?_⟩
    intro hne
    have hv : (validate_contact_data name email subject message).1 = false := by
      show (validate_contact_data name email subject message).2.isEmpty = false
      cases hl : (validate_contact_data name email subject message).2 with
      | nil => exact absurd hl hne
      | cons a l => simp
    simp [contact_post, h1, h2, h3, h4, hv]

/-- Witness for C9: a missing name short-circuits with its required-field
message; with all fields present, a too-short subject comes back in the
validation map. -/
theorem contact_two_tier_witness :
    contact_post "" "al@example.com" "Hello" "0123456789"
      = .requiredFieldError "Name cannot be empty" ∧
    contact_post "Al" "al@example.com" "Hi" "0123456789"
      = .validationFailure
          (validate_contact_data "Al" "al@example.com" "Hi" "0123456789").2 :=
  ⟨(contact_two_tier "" "al@example.com" "Hello" "0123456789").1 rfl,
   ((contact_two_tier "Al" "al@example.com" "Hi" "0123456789").2.2.2.2
     (by decide) (by decide) (by decide) (by decide)).2 (by decide)⟩

/-- `afterChar` drops at least the separator. -/
theorem afterChar_length {t : Char} :
    ∀ {l r : List Char}, afterChar t l = some r → r.length < l.length := by
  intro l
  induction l with
  | nil => intro r hr; simp [afterChar] at hr
  | cons a as ih =>
    intro r hr
    simp only [afterChar] at hr
    split at hr
    · cases hr; simp
    · have := ih hr
      simp only [List.length_cons]
      omega

/-- A failed `afterChar` search means the character is absent. -/
theorem afterChar_none {t : Char} :
    ∀ {l : List Char}, afterChar t l = none →
      l.any (fun d => d = t) = false := by
  intro l
  induction l with
  | nil => intro _; rfl
  | cons c rest ih =>
    intro h
    simp only [afterChar] at h
    split at h
    · exact absurd h (by simp)
    · rename_i hc
      simp only [List.any_cons, Bool.or_eq_false_iff]
      exact ⟨by simp [hc], ih h⟩

/-- A list without `>` has no tag match. -/
theorem ltThenGt_of_no_gt :
    ∀ {l : List Char}, l.any (fun d => d = '>') = false →
      ltThenGt l = false := by
  intro l
  induction l with
  | nil => intro _; rfl
  | cons c rest ih =>
    intro h
    simp only [List.any_cons, Bool.or_eq_false_iff] at h
    have hrest := ih h.2
    by_cases hc : c = '<'
    · simp [ltThenGt, hc, h.2, hrest]
    · simp [ltThenGt, hc, hrest]

/-- Tag stripping leaves no tag match (with sufficient fuel): every kept
`<` has no `>` anywhere after it. -/
theorem ltThenGt_stripTagsFuel :
    ∀ (fuel : Nat) {l : List Char}, l.length ≤ fuel →
      ltThenGt (stripTagsFuel fuel l) = false := by
  intro fuel
  induction fuel with
  | zero =>
    intro l hl
    have h0 : l = [] := List.eq_nil_of_length_eq_zero (Nat.le_zero.mp hl)
    subst h0
    rfl
  | succ fuel ih =>
    intro l hl
    cases l with
    | nil => rfl
    | cons c rest =>
      have hl2 : rest.length ≤ fuel := by simp at hl; omega
      by_cases hc : c = '<'
      · simp only [stripTagsFuel, if_pos hc]
        cases hgt : afterChar '>' rest with
        | some rest2 =>
          have hlen := afterChar_length hgt
          exact ih (by omega)
        | none =>
          have hno := afterChar_none hgt
          subst hc
          simp [ltThenGt, hno, ltThenGt_of_no_gt hno]
      · simp only [stripTagsFuel, if_neg hc]
        simp only [ltThenGt, if_neg hc]
        exact ih hl2

/-- `stripTags` leaves no tag match. -/
theorem ltThenGt_stripTags (l : List Char) : ltThenGt (stripTags l) = false :=
  ltThenGt_stripTagsFuel l.length (le_refl _)

/-- A tag match in a sublist is a tag match in the list: the later removal
passes, which only delete characters, cannot create a tag match. -/
theorem ltThenGt_mono :
    ∀ {l1 l2 : List Char}, List.Sublist l1 l2 → ltThenGt l1 = true →
      ltThenGt l2 = true := by
  intro l1 l2 hs
  induction hs with
  | slnil => exact fun h => h
  | cons c hs2 ih =>
    intro h
    have h2 := ih h
    by_cases hc : c = '<'
    · simp [ltThenGt, hc, h2]
    · simp [ltThenGt, hc, h2]
  | cons₂ c hs2 ih =>
    intro h
    by_cases hc : c = '<'
    · simp only [ltThenGt, if_pos hc, Bool.or_eq_true] at h ⊢
      rcases h with h | h
      · obtain ⟨x, hx, hpx⟩ := List.any_eq_true.mp h
        exact Or.inl (List.any_eq_true.mpr ⟨x, hs2.subset hx, hpx⟩)
      · exact Or.inr (ih h)
    · simp only [ltThenGt, if_neg hc] at h ⊢
      exact ih h

/-- `removeJsFuel` only deletes characters. -/
theorem removeJsFuel_sublist :
    ∀ (fuel : Nat) (l : List Char), List.Sublist (removeJsFuel fuel l) l := by
  intro fuel
  induction fuel with
  | zero => intro l; exact List.Sublist.refl l
  | succ fuel ih =>
    intro l
    cases l with
    | nil => exact List.Sublist.refl _
    | cons c rest =>
      simp only [removeJsFuel]
      split
      · exact (ih _).trans (List.drop_sublist _ _)
      · exact List.Sublist.cons₂ c (ih rest)

/-- A successful `on\w+\s*=` match consumes a middle segment: the suffix
after the `=` is a sublist of the input. -/
theorem onAttrMatch_sublist :
    ∀ {l tail : List Char}, onAttrMatch l = some tail →
      List.Sublist tail l := by
  intro l tail h
  rcases l with _ | ⟨o, _ | ⟨n, rest⟩⟩
  · simp [onAttrMatch] at h
  · simp [onAttrMatch] at h
  · simp only [onAttrMatch] at h
    split at h
    · split at h
      · exact absurd h (by simp)
      · split at h
        · rename_i t heq
          injection h with h2
          subst h2
          have hs1 : List.Sublist ('=' :: t) rest := by
            rw [← heq]
            exact (List.dropWhile_sublist _).trans (List.dropWhile_sublist _)
          have hs2 : List.Sublist t rest :=
            (List.sublist_cons_self '=' t).trans hs1
          exact hs2.trans ((List.sublist_cons_self n rest).trans
            (List.sublist_cons_self o (n :: rest)))
        · exact absurd h (by simp)
    · exact absurd h (by simp)

/-- `removeOnAttrFuel` only deletes characters. -/
theorem removeOnAttrFuel_sublist :
    ∀ (fuel : Nat) (l : List Char), List.Sublist (removeOnAttrFuel fuel l) l := by
  intro fuel
  induction fuel with
  | zero => intro l; exact List.Sublist.refl l
  | succ fuel ih =>
    intro l
    cases l with
    | nil => exact List.Sublist.refl _
    | cons c rest =>
      simp only [removeOnAttrFuel]
      cases hm : onAttrMatch (c :: rest) with
      | some tail => exact (ih tail).trans (onAttrMatch_sublist hm)
      | none => exact List.Sublist.cons₂ c (ih rest)

/-- `strip()` only deletes characters. -/
theorem trimChars_sublist (l : List Char) : List.Sublist (trimChars l) l := by
  unfold trimChars
  have h1 : List.Sublist
      ((l.dropWhile Char.isWhitespace).reverse.dropWhile Char.isWhitespace)
      (l.dropWhile Char.isWhitespace).reverse := List.dropWhile_sublist _
  have h2 := h1.reverse
  rw [List.reverse_reverse] at h2
  exact h2.trans (List.dropWhile_sublist _)

/-- **C10.** Bio sanitization removes markup from every accepted bio: any
bio of raw length at most 500 is accepted, and its sanitized output
contains no remaining `<[^>]*>` tag match (the later `javascript:` and
`on*=` passes and the final strip only delete characters, so they cannot
re-create one); in particular `<script>alert(1)</script>hello` is accepted,
sanitizes to `alert(1)hello`, contains `hello` and does not contain
`<script>`. -/
theorem bio_sanitization (bio : String) (hlen : bio.length ≤ 500) :
    (validate_bio bio).1 = true ∧
    ltThenGt (validate_bio bio).2.toList = false ∧
    validate_bio "<script>alert(1)</script>hello" = (true, "alert(1)hello") ∧
    List.IsInfix "hello".toList
      (validate_bio "<script>alert(1)</script>hello").2.toList ∧
    ¬ List.IsInfix "<script>".toList
      (validate_bio "<script>alert(1)</script>hello").2.toList := by
  refine ⟨?_, ?_, by decide, by decide, by decide⟩
  · unfold validate_bio
    by_cases hb : bio = ""
    · simp [hb]
    · rw [if_neg hb, if_neg (by omega)]
  · unfold validate_bio
    by_cases hb : bio = ""
    · simp [hb, ltThenGt]
    · rw [if_neg hb, if_neg (by omega)]
      show ltThenGt ((sanitizeBioChars bio.toList).asString).toList = false
      have hts : ((sanitizeBioChars bio.toList).asString).toList
          = sanitizeBioChars bio.toList := rfl
      rw [hts]
      unfold sanitizeBioChars
      have hsub : List.Sublist
          (trimChars (removeOnAttr (removeJs (stripTags bio.toList))))
          (stripTags bio.toList) :=
        ((trimChars_sublist _).trans (removeOnAttrFuel_sublist _ _)).trans
          (removeJsFuel_sublist _ _)
      by_cases hres :
          ltThenGt (trimChars (removeOnAttr (removeJs (stripTags bio.toList))))
      · have hbad := ltThenGt_mono hsub hres
        rw [ltThenGt_stripTags] at hbad
        exact absurd hbad (by simp)
      · rw [Bool.not_eq_true] at hres
        exact hres

/-- Witness for C10 at the spec's own example bio. -/
theorem bio_sanitization_witness :
    (validate_bio "<script>alert(1)</script>hello").1 = true ∧
    ltThenGt (validate_bio "<script>alert(1)</script>hello").2.toList = false ∧
    validate_bio "<script>alert(1)</script>hello" = (true, "alert(1)hello") ∧
    List.IsInfix "hello".toList
      (validate_bio "<script>alert(1)</script>hello").2.toList ∧
    ¬ List.IsInfix "<script>".toList
      (validate_bio "<script>alert(1)</script>hello").2.toList :=
  bio_sanitization "<script>alert(1)</script>hello" (by decide)

end WebTemplate
